import Mathlib

/-!
Shallow embedding of the released-api service (src/main.rs).

The service fetches GitHub release metadata, reduces the markdown release
body to a flat sequence of classified text fragments, and caches the
assembled records in a bounded LRU cache keyed by an org/repo/tag-or-latest
lookup predicate.  The embedding below translates, from the source:

* `Item`, `AuthorInfo`, `ApiResponse` (the record/data model),
* `Item::build_items` (pass 1: the classification walk over the markdown
  syntax tree, including the `type_id`-based image-paragraph special case),
* `Item::reduce_ast` (pass 2: the merge/flush loop),
* `Item::from_list` (body → items, with the external markdown parser passed
  in as an oracle),
* the cache lookup predicate of `get_release_notes` (line 107) and the
  tag-dispatch / latest-flag computation shared by both handlers,
* the `force_refresh` and `get_release_notes` handlers, with the external
  octocrab fetch passed in as an oracle.

The uluru `LRUCache` is an external crate; its behaviour is modelled from
the spec (see `lru_insert` / `lru_find`).
-/

/-- One classified fragment of release-note text (struct `Item`,
main.rs lines 156-160). -/
structure Item where
  category : String
  text : String
deriving DecidableEq, Repr

/-- Release author info embedded in a record (struct `AuthorInfo`,
main.rs lines 150-154). -/
structure AuthorInfo where
  name : String
  image : String
deriving DecidableEq, Repr

/-- The cached/served release record (struct `ApiResponse`,
main.rs lines 273-283). -/
structure ApiResponse where
  repo : String
  org : String
  title : String
  latest : Bool
  author : Option AuthorInfo
  tag : String
  items : List Item
  url : String
deriving DecidableEq, Repr

/-- Character-list prefix test; `listIsPre pat s` holds when `pat` is a
prefix of `s`. -/
def listIsPre : List Char → List Char → Bool
  | [], _ => true
  | _ :: _, [] => false
  | a :: as, b :: bs => a == b && listIsPre as bs

/-- Rust `str::starts_with` for a string pattern: `s` starts with `pat`.
Used by `reduce_ast` (main.rs line 188) as `next.category.starts_with("break")`. -/
def strStartsWith (s pat : String) : Bool :=
  listIsPre pat.data s.data

/-- One iteration of the `while let Some(next) = item_queue.pop_front()` loop
of `Item::reduce_ast` (main.rs lines 187-209).  The state is the pair of the
`transformed` output vector and the `building` buffer.  A category starting
with `"break"` flushes the buffer as a `"text"` item and clears it; `"italic"`
and `"bold"` append the text wrapped in `<i>`/`<b>` tag pairs; every other
category appends the raw text. -/
def reduceStep (s : List Item × String) (next : Item) : List Item × String :=
  if strStartsWith next.category "break" then
    (s.1 ++ [⟨"text", s.2⟩], "")
  else if next.category = "italic" then
    (s.1, s.2 ++ "<i>" ++ next.text ++ "</i>")
  else if next.category = "bold" then
    (s.1, s.2 ++ "<b>" ++ next.text ++ "</b>")
  else
    (s.1, s.2 ++ next.text)

/-- `Item::reduce_ast` (main.rs lines 183-211): fold the flat item sequence
left to right starting from an empty output and an empty buffer, returning
only the `transformed` output (the trailing buffer is dropped). -/
def Item.reduce_ast (items : List Item) : List Item :=
  (items.foldl reduceStep ([], "")).1

example : Item.reduce_ast [⟨"bold", "B"⟩, ⟨"break-p", ""⟩] = [⟨"text", "<b>B</b>"⟩] := by decide
example : strStartsWith "break.com" "break" = true := by decide
example : strStartsWith "bold" "break" = false := by decide

mutual
/-- The markdown syntax tree (`markdown::mdast::Node`), closed over the node
kinds `Item::build_items` dispatches on (main.rs lines 213-268); every
unhandled mdast variant is collapsed into `other`, and `image` stands for
`Node::Image` (whose payload is never read by the walk). -/
inductive Node where
  | root (children : NodeList)
  | paragraph (children : NodeList)
  | list (children : NodeList)
  | listItem (children : NodeList)
  | strong (children : NodeList)
  | link (url : String) (children : NodeList)
  | emphasis (children : NodeList)
  | inlineCode (value : String)
  | text (value : String)
  | image
  | other

/-- Children lists of `Node` (the `Vec<Node>` fields), as a mutual inductive
so the walk is plain structural recursion. -/
inductive NodeList where
  | nil
  | cons (head : Node) (tail : NodeList)
end

/-- Length of a children list (`Vec::len`). -/
def NodeList.length : NodeList → Nat
  | NodeList.nil => 0
  | NodeList.cons _ rest => 1 + NodeList.length rest

/-- First child, when any (`<[Node]>::first`). -/
def NodeList.headOpt : NodeList → Option Node
  | NodeList.nil => none
  | NodeList.cons n _ => some n

/-- Model of Rust `std::any::TypeId` restricted to the two types compared on
main.rs line 223.  `TypeId` identifies a compile-time type; it never depends
on which enum variant a value holds. -/
inductive TypeId where
  | nodeTy
  | imageCtorTy
deriving DecidableEq, BEq, Repr

/-- `n.type_id()` for `n: &Node` (main.rs line 223): `Any::type_id` resolves
through auto-deref to `<Node as Any>::type_id`, i.e. `TypeId::of::<Node>()` —
the same value for every variant of the enum, image or not. -/
def nodeValueTypeId (_ : Node) : TypeId := TypeId.nodeTy

/-- `(&Node::Image).type_id()` (main.rs line 223): `Node::Image` is the tuple
variant's constructor, a zero-sized fn item; its `TypeId` is that of the fn
item type `fn(Image) -> Node`, which is a different type from `Node`, hence a
different `TypeId` from `nodeValueTypeId`. -/
def imageCtorTypeId : TypeId := TypeId.imageCtorTy

/-- The context argument of `Item::build_items`.  The Rust code passes the
parent `Node` as `Option<&Node>`; its only observable use is the head match
in the `Node::Text` arm (main.rs lines 254-264), which distinguishes
`Strong`, `Emphasis` and `Link` (reading the link's `url`) and treats `None`
and every other parent alike — `Ctx.outer` stands for all of those. -/
inductive Ctx where
  | strong
  | emphasis
  | link (url : String)
  | outer

mutual
/-- `Item::build_items` (main.rs lines 213-268), pass 1 of the reducer: the
classification walk.  Returns `none` exactly where the Rust code returns
`None` (the image-only-paragraph branch, `Node::Image`, and unhandled node
kinds); each container visits its children with itself as context and a
paragraph/list appends a `"break-p"`/`"break-l"` marker after them. -/
def Item.build_items : Node → Ctx → Option (List Item)
  | Node.root children, _ =>
      some (Item.buildChildren children Ctx.outer)
  | Node.paragraph children, _ =>
      if NodeList.length children == 1 &&
          (match NodeList.headOpt children with
           | some n => nodeValueTypeId n == imageCtorTypeId
           | none => false) then
        none
      else
        some (Item.buildChildren children Ctx.outer ++ [⟨"break-p", ""⟩])
  | Node.list children, _ =>
      some (Item.buildChildren children Ctx.outer ++ [⟨"break-l", ""⟩])
  | Node.listItem children, _ =>
      some (Item.buildChildren children Ctx.outer)
  | Node.strong children, _ =>
      some (Item.buildChildren children Ctx.strong)
  | Node.link url children, _ =>
      some (Item.buildChildren children (Ctx.link url))
  | Node.emphasis children, _ =>
      some (Item.buildChildren children (Ctx.emphasis))
  | Node.inlineCode value, _ =>
      some [⟨"code", value⟩]
  | Node.text value, ctx =>
      some [⟨(match ctx with
              | Ctx.strong => "bold"
              | Ctx.emphasis => "italic"
              | Ctx.link url => url
              | Ctx.outer => "text"), value⟩]
  | Node.image, _ => none
  | Node.other, _ => none

/-- The `children.iter().filter_map(|i| build_items(i, Some(node))).flat_map(|i| i)`
pipeline shared by every container arm of `build_items`: children whose walk
returns `None` contribute nothing, the rest are concatenated in order. -/
def Item.buildChildren : NodeList → Ctx → List Item
  | NodeList.nil, _ => []
  | NodeList.cons n rest, ctx =>
      (match Item.build_items n ctx with
       | some items => items
       | none => []) ++ Item.buildChildren rest ctx
end

/-- The `Ok(node)` branch of `Item::from_list` (main.rs lines 169-174): walk
the parsed tree with no context (`Ctx.outer` models Rust's `None`), then run
pass 2; a `None` walk yields no items. -/
def items_of_ast (node : Node) : List Item :=
  match Item.build_items node Ctx.outer with
  | some items => Item.reduce_ast items
  | none => []

/-- `Item::from_list` (main.rs lines 163-181).  The external markdown parser
(`markdown::to_mdast` with GFM options) is passed in as the `parse` oracle;
a missing body or a parse failure yields the empty sequence. -/
def Item.from_list (parse : String → Except Unit Node) (body : Option String) :
    List Item :=
  match body with
  | none => []
  | some notes =>
      match parse notes with
      | Except.ok node => items_of_ast node
      | Except.error _ => []

def astImgDemo : Node :=
  Node.root (NodeList.cons (Node.paragraph (NodeList.cons Node.image NodeList.nil)) NodeList.nil)

example : items_of_ast astImgDemo = [⟨"text", ""⟩] := by decide

/-- HTTP status codes the service actually produces. -/
inductive StatusCode where
  | OK
  | NOT_FOUND
  | INTERNAL_SERVER_ERROR
deriving DecidableEq, Repr

/-- Author data of an upstream release (the octocrab `Author` fields read on
main.rs lines 78-81). -/
structure GithubAuthor where
  login : String
  avatar_url : String
deriving DecidableEq, Repr

/-- An upstream release as consumed by the handlers (the octocrab `Release`
fields read on main.rs lines 77-84). -/
structure Release where
  name : Option String
  tag_name : String
  author : Option GithubAuthor
  body : Option String
  html_url : String
deriving DecidableEq, Repr

/-- Which upstream octocrab operation a request dispatches to. -/
inductive FetchOp where
  | getLatest
  | getByTag (t : String)
deriving DecidableEq, Repr

/-- The upstream dispatch `match tag { Some(tag) => releases.get_by_tag(tag),
_ => releases.get_latest() }`, written identically in `force_refresh`
(main.rs lines 61-70) and `get_release_notes` (main.rs lines 114-123):
any present `tag` query parameter — the literal `"latest"` included — goes
to `get_by_tag`. -/
def fetch_dispatch (tagParam : Option String) : FetchOp :=
  match tagParam with
  | some t => FetchOp.getByTag t
  | none => FetchOp.getLatest

/-- The `is_latest`/`fetch_latest` flag `params.get("tag").is_none() ||
params.get("tag").is_some_and(|s| s.as_str() == "latest")`, computed
identically in both handlers (main.rs lines 54-55 and 103-104). -/
def fetch_latest_of (tagParam : Option String) : Bool :=
  tagParam.isNone ||
    (match tagParam with
     | some s => s == "latest"
     | none => false)

/-- The cache lookup predicate of `get_release_notes` (main.rs line 107):
`res.org == org && res.repo == repo && (fetch_latest == res.latest ||
tag.is_some_and(|t| t == &res.tag))`. -/
def cachePred (org repo : String) (tagParam : Option String) (res : ApiResponse) :
    Bool :=
  res.org == org && res.repo == repo &&
    (fetch_latest_of tagParam == res.latest ||
      (match tagParam with
       | some t => t == res.tag
       | none => false))

/-- The tag-or-latest selector of the spec (section 4.1). -/
inductive TagSelector where
  | Latest
  | Specific (t : String)
deriving DecidableEq, Repr

/-- How the HTTP layer's optional `tag` query parameter maps to a selector:
absent or the literal `"latest"` means `Latest` (spec section 6). -/
def selector_of (tagParam : Option String) : TagSelector :=
  match tagParam with
  | none => TagSelector.Latest
  | some t => if t = "latest" then TagSelector.Latest else TagSelector.Specific t

/-- The lookup predicate as the SPEC states it (section 4.1), for comparison
with `cachePred`: org and repo match exactly AND either the selector is
`Latest` and the record's latest flag is true, or the selector is
`Specific t` and the record's tag equals `t`. -/
def specPred (org repo : String) (sel : TagSelector) (res : ApiResponse) : Bool :=
  res.org == org && res.repo == repo &&
    (match sel with
     | TagSelector.Latest => res.latest
     | TagSelector.Specific t => res.tag == t)

/-- Fixed capacity of the cache: `LRUCache<ApiResponse, 8192>`
(main.rs line 22). -/
def CACHE_CAPACITY : Nat := 8192

/-- Modelled from the spec: `uluru::LRUCache::insert` (an external crate, not
part of this repository's sources).  The cache is a list with the
most-recently-used entry at the front; inserting at capacity first evicts
the least-recently-used entry (the last element), and the new record is
stored most-recently-used (spec sections 3 and 4.1). -/
def lru_insert (cap : Nat) (x : α) (cache : List α) : List α :=
  if cache.length < cap then x :: cache else x :: cache.dropLast

/-- Modelled from the spec: `uluru::LRUCache::find` (external crate).  On a
hit the matched entry is promoted to most-recently-used and returned; on a
miss the cache is unchanged. -/
def lru_find (p : α → Bool) (cache : List α) : Option α × List α :=
  match cache.find? p with
  | some x => (some x, x :: cache.eraseP p)
  | none => (none, cache)

/-- Assembly of an `ApiResponse` from an upstream release, written
identically in both handlers (main.rs lines 73-85 and 124-136): the title
falls back to the tag name, the author is mapped when present, and the items
come from reducing the body. -/
def assemble (parse : String → Except Unit Node) (org repo : String)
    (is_latest : Bool) (r : Release) : ApiResponse :=
  { repo := repo
    org := org
    title := r.name.getD r.tag_name
    latest := is_latest
    author := r.author.map (fun a => ⟨a.login, a.avatar_url⟩)
    tag := r.tag_name
    items := Item.from_list parse r.body
    url := r.html_url }

/-- The `let release` binding of `force_refresh` (main.rs lines 61-70): the
dispatched fetch with its error mapped to `StatusCode::NOT_FOUND` by
`map_err`. -/
def refresh_release (upstream : FetchOp → Except Unit Release)
    (tagParam : Option String) : Except StatusCode Release :=
  match upstream (fetch_dispatch tagParam) with
  | Except.ok r => Except.ok r
  | Except.error _ => Except.error StatusCode.NOT_FOUND

/-- `force_refresh` (main.rs lines 47-90).  The external octocrab fetch is
the `upstream` oracle.  The final `match release` (lines 71-89) pairs `Ok`
with insert-and-`OK` and sends every other value — the `Err(NOT_FOUND)`
built by `refresh_release` included — to the
`_ => StatusCode::INTERNAL_SERVER_ERROR` arm, so the mapped status is
discarded.  Returns the status and the updated cache. -/
def force_refresh (parse : String → Except Unit Node)
    (upstream : FetchOp → Except Unit Release)
    (org repo : String) (tagParam : Option String) (cache : List ApiResponse) :
    StatusCode × List ApiResponse :=
  match refresh_release upstream tagParam with
  | Except.ok r =>
      (StatusCode.OK,
       lru_insert CACHE_CAPACITY
         (assemble parse org repo (fetch_latest_of tagParam) r) cache)
  | Except.error _ => (StatusCode.INTERNAL_SERVER_ERROR, cache)

/-- `get_release_notes` (main.rs lines 93-148).  A cache hit (by `cachePred`)
returns the stored record; on a miss the dispatched upstream fetch either
fails — surfaced as `NOT_FOUND` via `map_err` and `?` (lines 115-122) — or
succeeds, in which case the assembled record is inserted and returned.
Returns the response and the updated cache. -/
def get_release_notes (parse : String → Except Unit Node)
    (upstream : FetchOp → Except Unit Release)
    (org repo : String) (tagParam : Option String) (cache : List ApiResponse) :
    Except StatusCode ApiResponse × List ApiResponse :=
  match lru_find (cachePred org repo tagParam) cache with
  | (some r, cache2) => (Except.ok r, cache2)
  | (none, cache2) =>
      match upstream (fetch_dispatch tagParam) with
      | Except.error _ => (Except.error StatusCode.NOT_FOUND, cache2)
      | Except.ok rel =>
          (Except.ok (assemble parse org repo (fetch_latest_of tagParam) rel),
           lru_insert CACHE_CAPACITY
             (assemble parse org repo (fetch_latest_of tagParam) rel) cache2)

/-- An abstract step of the shared cache: a lookup, a plain insert, or one of
the two handlers run against the cache (their returned cache state). -/
inductive CacheOp where
  | lookup (p : ApiResponse → Bool)
  | insert (r : ApiResponse)
  | request (parse : String → Except Unit Node)
      (upstream : FetchOp → Except Unit Release)
      (org repo : String) (tagParam : Option String)
  | refresh (parse : String → Except Unit Node)
      (upstream : FetchOp → Except Unit Release)
      (org repo : String) (tagParam : Option String)

/-- Effect of one `CacheOp` on the cache contents. -/
def cache_step (cache : List ApiResponse) : CacheOp → List ApiResponse
  | CacheOp.lookup p => (lru_find p cache).2
  | CacheOp.insert r => lru_insert CACHE_CAPACITY r cache
  | CacheOp.request parse upstream org repo tagParam =>
      (get_release_notes parse upstream org repo tagParam cache).2
  | CacheOp.refresh parse upstream org repo tagParam =>
      (force_refresh parse upstream org repo tagParam cache).2

/-- Run a sequence of cache operations from the empty cache
(`LRUCache::new()`, main.rs line 32). -/
def cache_run (ops : List CacheOp) : List ApiResponse :=
  ops.foldl cache_step []

/-! Shared concrete values used by the example-level theorems. -/

/-- A parser oracle for requests whose body is never parsed (or fails to
parse: main.rs lines 175-177 degrade to the empty item list). -/
def noParse : String → Except Unit Node := fun _ => Except.error ()

/-- An upstream oracle on which every fetch fails. -/
def failUpstream : FetchOp → Except Unit Release := fun _ => Except.error ()

/-- A concrete upstream release. -/
def demoRel : Release :=
  { name := none, tag_name := "v1.0", author := none, body := none, html_url := "u" }

/-- An upstream oracle of a repository that has a latest release but no tag
literally named `"latest"`: `get_latest` succeeds, every `get_by_tag` fails. -/
def upstreamLatestOnly : FetchOp → Except Unit Release :=
  fun op =>
    match op with
    | FetchOp.getLatest => Except.ok demoRel
    | FetchOp.getByTag _ => Except.error ()

/-- A concrete cached record: stored for tag `"v1.0"` with `latest = false`. -/
def recV1 : ApiResponse :=
  { repo := "r", org := "o", title := "v1.0", latest := false, author := none,
    tag := "v1.0", items := [], url := "u" }

/-! Helper lemmas about one step of the pass-2 reducer. -/

/-- A step on an item whose category starts with `"break"` flushes the buffer. -/
lemma reduceStep_break (s : List Item × String) (i : Item)
    (h : strStartsWith i.category "break" = true) :
    reduceStep s i = (s.1 ++ [⟨"text", s.2⟩], "") := by
  simp [reduceStep, h]

/-- A step on an item whose category does not start with `"break"` leaves the
output component unchanged. -/
lemma reduceStep_fst_not_break (s : List Item × String) (i : Item)
    (h : strStartsWith i.category "break" = false) :
    (reduceStep s i).1 = s.1 := by
  unfold reduceStep
  rw [h]
  simp only [Bool.false_eq_true, if_false]
  split
  · rfl
  · split
    · rfl
    · rfl

/-- Folding the reducer over break-free items never changes the output
component: everything lands in the (eventually discarded) buffer. -/
lemma foldl_reduceStep_fst_no_break (ys : List Item) :
    ∀ s : List Item × String,
      (∀ i ∈ ys, strStartsWith i.category "break" = false) →
      (ys.foldl reduceStep s).1 = s.1 := by
  induction ys with
  | nil => intro s _; rfl
  | cons a rest ih =>
      intro s h
      have ha : strStartsWith a.category "break" = false := h a (by simp)
      have hrest : ∀ i ∈ rest, strStartsWith i.category "break" = false :=
        fun i hi => h i (List.mem_cons_of_mem _ hi)
      rw [List.foldl_cons, ih _ hrest, reduceStep_fst_not_break _ _ ha]

/-- Every item the reducer ever pushes into the output has category
`"text"`. -/
lemma foldl_reduceStep_categories (items : List Item) :
    ∀ s : List Item × String, (∀ i ∈ s.1, i.category = "text") →
      ∀ i ∈ (items.foldl reduceStep s).1, i.category = "text" := by
  induction items with
  | nil => intro s hs; exact hs
  | cons a rest ih =>
      intro s hs
      rw [List.foldl_cons]
      apply ih
      by_cases hb : strStartsWith a.category "break" = true
      · rw [reduceStep_break s a hb]
        intro i hi
        rcases List.mem_append.mp hi with h1 | h1
        · exact hs i h1
        · simp only [List.mem_singleton] at h1
          rw [h1]
      · rw [reduceStep_fst_not_break s a (by simpa using hb)]
        exact hs

/-- The reducer emits exactly one output item per processed item whose
category starts with `"break"`. -/
lemma foldl_reduceStep_length (items : List Item) :
    ∀ s : List Item × String,
      (items.foldl reduceStep s).1.length =
        s.1.length + items.countP (fun i => strStartsWith i.category "break") := by
  induction items with
  | nil => intro s; simp
  | cons a rest ih =>
      intro s
      rw [List.foldl_cons, ih, List.countP_cons]
      by_cases hb : strStartsWith a.category "break" = true
      · rw [reduceStep_break s a hb]
        simp [hb]
        omega
      · rw [reduceStep_fst_not_break s a (by simpa using hb)]
        simp only [decide_eq_true_eq] at hb ⊢
        simp [hb]

/-! Helper lemmas about the cache model. -/

/-- Any single cache operation preserves the capacity bound. -/
lemma cache_step_length_le (cache : List ApiResponse) (op : CacheOp)
    (h : cache.length ≤ CACHE_CAPACITY) :
    (cache_step cache op).length ≤ CACHE_CAPACITY := by
  have hfind : ∀ p : ApiResponse → Bool,
      (lru_find p cache).2.length ≤ CACHE_CAPACITY := by
    intro p
    unfold lru_find
    cases hf : cache.find? p with
    | none => simpa using h
    | some x =>
        have hmem : x ∈ cache := List.mem_of_find?_eq_some hf
        have hpos : 0 < cache.length := List.length_pos.mpr (List.ne_nil_of_mem hmem)
        have hlen : (cache.eraseP p).length = cache.length - 1 :=
          List.length_eraseP_of_mem hmem (List.find?_some hf)
        simp only [List.length_cons, hlen]
        omega
  have hins : ∀ (c : List ApiResponse), c.length ≤ CACHE_CAPACITY →
      ∀ r : ApiResponse, (lru_insert CACHE_CAPACITY r c).length ≤ CACHE_CAPACITY := by
    intro c hc r
    unfold lru_insert
    split
    · next hlt => simp only [List.length_cons]; omega
    · next hge =>
        have : (c.dropLast).length = c.length - 1 := List.length_dropLast c
        simp only [List.length_cons, this]
        simp only [CACHE_CAPACITY] at hc hge ⊢
        omega
  cases op with
  | lookup p => exact hfind p
  | insert r => exact hins cache h r
  | request parse upstream org repo tagParam =>
      have hh := hfind (cachePred org repo tagParam)
      simp only [cache_step]
      unfold get_release_notes
      split
      · next r cache2 heq =>
          rw [heq] at hh
          simpa using hh
      · next cache2 heq =>
          rw [heq] at hh
          simp only at hh
          split
          · next e heq2 => simpa using hh
          · next rel heq2 => simpa using hins cache2 (by simpa using hh) _
  | refresh parse upstream org repo tagParam =>
      simp only [cache_step]
      unfold force_refresh
      split
      · next r heq => simpa using hins cache h _
      · next e heq => simpa using h

/-- Starting from the empty cache, any operation sequence stays within
capacity. -/
lemma cache_run_length_le (ops : List CacheOp) :
    (cache_run ops).length ≤ CACHE_CAPACITY := by
  suffices hgen : ∀ (cache : List ApiResponse), cache.length ≤ CACHE_CAPACITY →
      (ops.foldl cache_step cache).length ≤ CACHE_CAPACITY by
    exact hgen [] (by simp [CACHE_CAPACITY])
  induction ops with
  | nil => intro cache h; simpa using h
  | cons op rest ih =>
      intro cache h
      rw [List.foldl_cons]
      exact ih _ (cache_step_length_le cache op h)

/-- C1: the claim says a stored record is returned exactly when org and repo
match and the tag-or-latest selector matches (`Latest` needs `latest = true`,
`Specific t` needs `tag = t`), so a `Specific t` query is never satisfied by
a record whose tag differs from `t`.  The code disagrees: the predicate on
main.rs line 107 tests `fetch_latest == res.latest || tag == res.tag`, so at
the concrete state below the query for tag `"v2.0"` is satisfied by the
cached `"v1.0"` record (whose `latest` flag is `false`, matching
`fetch_latest == false`), and `get_release_notes` serves that wrong-tag
record, while the spec's own predicate rejects it. -/
theorem lookup_predicate_serves_mismatched_tag :
    cachePred "o" "r" (some "v2.0") recV1 = true ∧
    specPred "o" "r" (selector_of (some "v2.0")) recV1 = false ∧
    (get_release_notes noParse failUpstream "o" "r" (some "v2.0") [recV1]).1 =
      Except.ok recV1 := by
  refine ⟨by decide, by decide, ?_⟩
  rfl

/-- C2: the claim says a paragraph whose only child is an image is dropped
entirely, so `"![alt](url)"` reduces to the empty item sequence.  The code's
test on main.rs line 223 compares `n.type_id()` — which is
`TypeId::of::<Node>()` for every variant — with `(&Node::Image).type_id()` —
the `TypeId` of the constructor's fn-item type — so it is false for every
node and the special case never fires: the image-only paragraph still emits
its `"break-p"` marker, which pass 2 flushes into one empty `"text"` item,
a non-empty sequence. -/
theorem image_only_paragraph_not_dropped :
    items_of_ast astImgDemo = [⟨"text", ""⟩] ∧
    items_of_ast astImgDemo ≠ [] ∧
    (∀ n : Node, (nodeValueTypeId n == imageCtorTypeId) = false) := by
  refine ⟨by decide, by decide, fun n => rfl⟩

/-- C3: the claim says force-refresh returns not-found when the requested
tag does not exist upstream (and an internal error only for other failures),
leaving any cached record untouched.  The code builds `Err(NOT_FOUND)` via
`map_err` (main.rs lines 62-65) but the `match release` at lines 71-89 sends
every `Err` to the `_ => StatusCode::INTERNAL_SERVER_ERROR` arm, so a failed
by-tag fetch yields 500, never 404; the cache is indeed untouched. -/
theorem force_refresh_failure_returns_500 :
    (force_refresh noParse failUpstream "o" "r" (some "v9.9") [recV1]).1 =
      StatusCode.INTERNAL_SERVER_ERROR ∧
    (force_refresh noParse failUpstream "o" "r" (some "v9.9") [recV1]).1 ≠
      StatusCode.NOT_FOUND ∧
    (force_refresh noParse failUpstream "o" "r" (some "v9.9") [recV1]).2 = [recV1] := by
  refine ⟨rfl, by decide, rfl⟩

/-- The single-paragraph tree of the markdown input
`"**Bold** and *italic* text.\n"` as parsed by the GFM parser. -/
def astBoldItalic : Node :=
  Node.root (NodeList.cons (Node.paragraph
    (NodeList.cons (Node.strong (NodeList.cons (Node.text "Bold") NodeList.nil))
      (NodeList.cons (Node.text " and ")
        (NodeList.cons (Node.emphasis (NodeList.cons (Node.text "italic") NodeList.nil))
          (NodeList.cons (Node.text " text.") NodeList.nil))))) NodeList.nil)

/-- The tree of a paragraph holding one link whose target URL starts with
`"break"`: `"[x](break.com)"`. -/
def astLinkBreak : Node :=
  Node.root (NodeList.cons (Node.paragraph (NodeList.cons
    (Node.link "break.com" (NodeList.cons (Node.text "x") NodeList.nil))
    NodeList.nil)) NodeList.nil)

/-- C5 counterexample: the claim says a non-break item whose category is
neither `"bold"` nor `"italic"` — every link-target URL category included —
has its raw text appended, is never dropped and never triggers a flush,
regardless of the category string.  A link-target item whose URL starts with
`"break"` refutes this: `reduce_ast` treats it as a break (main.rs line 188),
flushing the buffer and dropping its text, instead of producing the single
merged item the claim predicts. -/
theorem link_break_category_triggers_flush :
    Item.reduce_ast [⟨"text", "y"⟩, ⟨"break.com", "x"⟩, ⟨"break-p", ""⟩] =
      [⟨"text", "y"⟩, ⟨"text", ""⟩] ∧
    Item.reduce_ast [⟨"text", "y"⟩, ⟨"break.com", "x"⟩, ⟨"break-p", ""⟩] ≠
      [⟨"text", "yx"⟩] := by decide

/-- C5 as amended: an item whose category does not start with `"break"` and
is neither `"italic"` nor `"bold"` has its raw text appended to the buffer
unchanged — it is never dropped and never triggers a flush.  (A category
that does start with `"break"` — possible for a link-target URL — is instead
treated as a break marker.) -/
theorem reduce_appends_non_break_categories
    (out : List Item) (buf : String) (c t : String)
    (hb : strStartsWith c "break" = false) (hi : c ≠ "italic") (hbo : c ≠ "bold") :
    reduceStep (out, buf) ⟨c, t⟩ = (out, buf ++ t) := by
  simp [reduceStep, hb, hi, hbo]

/-- Witness for `reduce_appends_non_break_categories` at an inline-code
item. -/
theorem reduce_appends_non_break_categories_witness :
    reduceStep ([], "a") ⟨"code", "b"⟩ = ([], "ab") :=
  reduce_appends_non_break_categories [] "a" "code" "b" (by decide) (by decide) (by decide)

/-- C6: a bold item's text is wrapped in `<b>`/`</b>`, an italic item's text
in `<i>`/`</i>`; each break item (`"break-p"` or `"break-l"`) flushes the
buffer as exactly one item of category `"text"` and clears it; and the
single-paragraph input `"**Bold** and *italic* text.\n"` reduces to the one
item `{category: "text", text: "<b>Bold</b> and <i>italic</i> text."}`. -/
theorem reduce_bold_italic_break_example :
    (∀ (out : List Item) (buf t : String),
        reduceStep (out, buf) ⟨"bold", t⟩ = (out, buf ++ "<b>" ++ t ++ "</b>")) ∧
    (∀ (out : List Item) (buf t : String),
        reduceStep (out, buf) ⟨"italic", t⟩ = (out, buf ++ "<i>" ++ t ++ "</i>")) ∧
    (∀ (out : List Item) (buf t : String),
        reduceStep (out, buf) ⟨"break-p", t⟩ = (out ++ [⟨"text", buf⟩], "")) ∧
    (∀ (out : List Item) (buf t : String),
        reduceStep (out, buf) ⟨"break-l", t⟩ = (out ++ [⟨"text", buf⟩], "")) ∧
    items_of_ast astBoldItalic = [⟨"text", "<b>Bold</b> and <i>italic</i> text."⟩] := by
  refine ⟨?_, ?_, ?_, ?_, by decide⟩
  · intro out buf t
    simp [reduceStep, show strStartsWith "bold" "break" = false from by decide]
  · intro out buf t
    simp [reduceStep, show strStartsWith "italic" "break" = false from by decide]
  · intro out buf t
    exact reduceStep_break (out, buf) ⟨"break-p", t⟩
      (show strStartsWith "break-p" "break" = true by decide)
  · intro out buf t
    exact reduceStep_break (out, buf) ⟨"break-l", t⟩
      (show strStartsWith "break-l" "break" = true by decide)

/-- C7 counterexample: the claim says a sequence containing no break marker
at all reduces to an empty output.  Break markers are the `"break-p"` /
`"break-l"` pseudo-items, yet a sequence holding only a link-target item
whose URL starts with `"break"` — no break marker — still produces output,
because the reducer's test is `starts_with("break")`. -/
theorem no_break_marker_nonempty_output :
    ([(⟨"break.com", "x"⟩ : Item)].countP
        (fun i => i.category == "break-p" || i.category == "break-l")) = 0 ∧
    Item.reduce_ast [⟨"break.com", "x"⟩] = [⟨"text", ""⟩] ∧
    Item.reduce_ast [⟨"break.com", "x"⟩] ≠ [] := by decide

/-- C7 as amended: any buffered text accumulated after the last item whose
category starts with `"break"` is never emitted — appending break-free items
(in the `starts_with("break")` sense) never changes the output, and a
sequence with no such item reduces to the empty output: the reducer performs
no implicit final flush. -/
theorem reduce_no_trailing_flush (xs ys : List Item)
    (h : ∀ i ∈ ys, strStartsWith i.category "break" = false) :
    Item.reduce_ast (xs ++ ys) = Item.reduce_ast xs ∧ Item.reduce_ast ys = [] := by
  constructor
  · unfold Item.reduce_ast
    rw [List.foldl_append]
    exact foldl_reduceStep_fst_no_break ys _ h
  · exact foldl_reduceStep_fst_no_break ys ([], "") h

/-- Witness for `reduce_no_trailing_flush`: trailing text after the last
break is dropped, and a break-free sequence reduces to nothing. -/
theorem reduce_no_trailing_flush_witness :
    Item.reduce_ast ([⟨"break-p", ""⟩] ++ [⟨"text", "trailing"⟩]) =
      Item.reduce_ast [⟨"break-p", ""⟩] ∧
    Item.reduce_ast [⟨"text", "trailing"⟩] = [] :=
  reduce_no_trailing_flush [⟨"break-p", ""⟩] [⟨"text", "trailing"⟩] (by decide)

/-- C10 counterexample: the claim says the number of emitted items equals
the number of break markers in the pass-1 sequence.  The pass-1 output of
`"[x](break.com)"` holds one break marker (`"break-p"`) but its link-target
item's category also starts with `"break"`, so the reducer emits two items,
not one. -/
theorem emitted_count_exceeds_break_markers :
    Item.build_items astLinkBreak Ctx.outer =
      some [⟨"break.com", "x"⟩, ⟨"break-p", ""⟩] ∧
    ([(⟨"break.com", "x"⟩ : Item), ⟨"break-p", ""⟩].countP
        (fun i => i.category == "break-p" || i.category == "break-l")) = 1 ∧
    (Item.reduce_ast [⟨"break.com", "x"⟩, ⟨"break-p", ""⟩]).length ≠
      ([(⟨"break.com", "x"⟩ : Item), ⟨"break-p", ""⟩].countP
        (fun i => i.category == "break-p" || i.category == "break-l")) := by decide

/-- C10 as amended: every item the reducer emits has category exactly
`"text"` (the pass-1 classifications never survive into the output), the
number of emitted items equals the number of pass-1 items whose category
starts with `"break"` (the break markers plus any link-target URL category
that itself starts with `"break"`), and a break reached with an empty buffer
still emits an item with empty text. -/
theorem reduce_output_all_text_counts_breaks (items : List Item) :
    (∀ i ∈ Item.reduce_ast items, i.category = "text") ∧
    (Item.reduce_ast items).length =
      items.countP (fun i => strStartsWith i.category "break") ∧
    (∀ (out : List Item) (t : String),
        reduceStep (out, "") ⟨"break-p", t⟩ = (out ++ [⟨"text", ""⟩], "")) := by
  refine ⟨?_, ?_, ?_⟩
  · exact foldl_reduceStep_categories items ([], "") (by simp)
  · have h := foldl_reduceStep_length items ([], "")
    simpa [Item.reduce_ast] using h
  · intro out t
    exact reduceStep_break (out, "") ⟨"break-p", t⟩
      (show strStartsWith "break-p" "break" = true by decide)

/-- Witness for `reduce_output_all_text_counts_breaks` at a concrete
two-item sequence. -/
theorem reduce_output_all_text_counts_breaks_witness :
    ((⟨"text", "<b>B</b>"⟩ : Item).category = "text") ∧
    (Item.reduce_ast [⟨"bold", "B"⟩, ⟨"break-p", ""⟩]).length =
      [(⟨"bold", "B"⟩ : Item), ⟨"break-p", ""⟩].countP
        (fun i => strStartsWith i.category "break") ∧
    reduceStep ([], "") ⟨"break-p", "z"⟩ = ([⟨"text", ""⟩], "") := by
  refine ⟨?_, ?_, ?_⟩
  · exact (reduce_output_all_text_counts_breaks [⟨"bold", "B"⟩, ⟨"break-p", ""⟩]).1
      ⟨"text", "<b>B</b>"⟩ (by decide)
  · exact (reduce_output_all_text_counts_breaks [⟨"bold", "B"⟩, ⟨"break-p", ""⟩]).2.1
  · have h := (reduce_output_all_text_counts_breaks []).2.2 [] "z"
    simpa using h

/-- C8: a record assembled from a Specific-tag request — tag parameter `t`
not the literal `"latest"` (that literal maps to the Latest selector), with
the by-tag upstream response carrying `tag_name = t`, hence `latest = false`
— never satisfies a lookup whose selector is Latest, i.e. whose tag
parameter is absent or the literal `"latest"`, whatever org/repo the lookup
asks for and even when `t` is in fact the most recent release upstream. -/
theorem specific_tag_record_never_matches_latest
    (parse : String → Except Unit Node)
    (org repo org2 repo2 t : String) (rel : Release) (q : Option String)
    (ht : t ≠ "latest") (hrel : rel.tag_name = t)
    (hq : q = none ∨ q = some "latest") :
    cachePred org2 repo2 q
      (assemble parse org repo (fetch_latest_of (some t)) rel) = false := by
  have hlat : fetch_latest_of (some t) = false := by
    simpa [fetch_latest_of] using ht
  have htag : ("latest" == rel.tag_name) = false := by
    rw [hrel]
    simpa using Ne.symm ht
  have hnone : fetch_latest_of none = true := rfl
  have hsome : fetch_latest_of (some "latest") = true := rfl
  rcases hq with hq | hq <;> subst hq <;>
    simp [cachePred, assemble, hlat, htag, hnone, hsome]

/-- Witness for `specific_tag_record_never_matches_latest`: the `"v1.0"`
record with `latest = false` does not satisfy a Latest lookup. -/
theorem specific_tag_record_never_matches_latest_witness :
    cachePred "o" "r" none
      (assemble noParse "o" "r" (fetch_latest_of (some "v1.0")) demoRel) = false :=
  specific_tag_record_never_matches_latest noParse "o" "r" "o" "r" "v1.0" demoRel none
    (by decide) rfl (Or.inl rfl)

/-- C9: after any sequence of lookup, insert, and handler (get /
force-refresh) operations starting from the empty cache, the cache holds at
most its fixed capacity of 8192 records; and an insert performed at capacity
evicts exactly the least-recently-used entry (the last element) before
storing the new record as most-recently-used (the front).  The LRU store
itself is the external uluru crate, modelled from the spec by
`lru_insert`/`lru_find`. -/
theorem cache_capacity_and_lru_eviction :
    (∀ ops : List CacheOp, (cache_run ops).length ≤ CACHE_CAPACITY) ∧
    (∀ (cache : List ApiResponse) (r : ApiResponse),
        cache.length = CACHE_CAPACITY →
        lru_insert CACHE_CAPACITY r cache = r :: cache.dropLast) := by
  constructor
  · exact cache_run_length_le
  · intro cache r h
    unfold lru_insert
    rw [if_neg (by omega)]

/-- Witness for `cache_capacity_and_lru_eviction`: a short operation
sequence stays within capacity, and inserting into a full cache keeps the
new record in front of all but the evicted last entry. -/
theorem cache_capacity_and_lru_eviction_witness :
    (cache_run [CacheOp.insert recV1,
      CacheOp.lookup (fun r => r.org == "o")]).length ≤ CACHE_CAPACITY ∧
    lru_insert CACHE_CAPACITY recV1 (List.replicate CACHE_CAPACITY recV1) =
      recV1 :: (List.replicate CACHE_CAPACITY recV1).dropLast :=
  ⟨cache_capacity_and_lru_eviction.1 _,
   cache_capacity_and_lru_eviction.2 _ _ (by simp)⟩

/-- C4: the claim says both operations treat an absent tag parameter or the
literal `"latest"` as a latest-release request, invoking `get_latest` on a
miss.  The code computes the `fetch_latest`/`is_latest` flag that way, but
the fetch dispatch (main.rs lines 61-70 and 114-123) matches only on
presence: `?tag=latest` invokes `get_by_tag("latest")`, not `get_latest` —
so against an upstream whose latest release exists but which has no tag
literally named `"latest"`, the request fails with not-found. -/
theorem latest_literal_dispatched_by_tag :
    fetch_dispatch (some "latest") = FetchOp.getByTag "latest" ∧
    fetch_dispatch (some "latest") ≠ FetchOp.getLatest ∧
    fetch_dispatch none = FetchOp.getLatest ∧
    fetch_latest_of (some "latest") = true ∧
    (get_release_notes noParse upstreamLatestOnly "o" "r" (some "latest") []).1 =
      Except.error StatusCode.NOT_FOUND := by
  refine ⟨rfl, by decide, rfl, rfl, ?_⟩
  rfl
